import Mathlib

/-!
Shallow embedding of `pkg/boot/build/build_executables.go` from
apiserver-builder-alpha.

The Go file is straight-line orchestration: it constructs external commands
(`exec.Command`), overlays environment variables on them, spawns them in
order, and calls `klog.Fatal` (terminating the whole process) on the first
failure.  We embed it as follows:

* An ambient process environment is an association list of variable names to
  values (`Env`).  `os.Getenv` is `getenv`; `os.Environ()` is the list itself
  (each Go `KEY=value` string is modelled as the pair `(KEY, value)`).
* A constructed command (`ExecCmd`) records the program, the argument list and
  the `Env` field of the Go `exec.Cmd`: `none` models the Go `nil` slice, in
  which case the child inherits the ambient environment; `some e` models an
  explicitly assigned slice, which is the child's entire environment.
* Each function's straight-line body becomes a plan, a list of `BStep`s
  (an `os.RemoveAll` call or a command spawn).  `runSteps` executes a plan
  against an oracle `ok : Nat → Bool` giving the success of the i-th spawned
  command; `os.RemoveAll` never fails, and the first failing command appends a
  `fatalExit` event (the `klog.Fatal` call) and stops the process, so the
  resulting trace ends there.
-/

namespace Build

/-- An ambient process environment: variable names mapped to values. -/
abbrev Env := List (String × String)

/-- `os.Getenv name`: the value bound to `name`, or `""` when absent. -/
def getenv (amb : Env) (name : String) : String :=
  match amb.find? (fun p => p.1 == name) with
  | some p => p.2
  | none => ""

/-- `filepath.Join a b` for the plain relative path components appearing in
this file (none involves `.`, `..`, empty components or repeated
separators, so no cleaning step is needed). -/
def pjoin (a b : String) : String :=
  if a = "" then b else if b = "" then a else a ++ "/" ++ b

/-- An external command as built by `exec.Command` together with its `Env`
field: `env = none` is the Go `nil` slice (the child inherits the ambient
environment), `some e` is an explicitly assigned environment, which is all
the child gets. -/
structure ExecCmd where
  prog : String
  args : List String
  env : Option (List (String × String))
deriving DecidableEq, Repr

/-- The environment the spawned child actually receives (`os/exec`
semantics: a `nil` `Env` inherits the parent's environment). -/
def childEnv (amb : Env) (c : ExecCmd) : List (String × String) :=
  c.env.getD amb

/-- Effective value of variable `k` in a constructed environment list:
per `os/exec`, when a key is duplicated the last entry wins. -/
def envValue (e : List (String × String)) (k : String) : Option String :=
  (e.reverse.find? (fun p => p.1 == k)).map (fun p => p.2)

/-- One statement of a straight-line body: an `os.RemoveAll` call or a
command spawn (`c.Run()`). -/
inductive BStep where
  | removeAll : String → BStep
  | spawn : ExecCmd → BStep
deriving DecidableEq, Repr

/-- An observable event of one run: the `initApis()` call, a file-tree
removal, a command spawn together with its success, or the process
termination performed by `klog.Fatal`. -/
inductive BEvent where
  | initApis : BEvent
  | removeAll : String → BEvent
  | spawn : ExecCmd → Bool → BEvent
  | fatalExit : BEvent
deriving DecidableEq, Repr

/-- Execute a straight-line plan.  `os.RemoveAll` ignores a missing file and
never fails.  The i-th spawned command succeeds iff `ok i`; on the first
failure the process logs fatally and halts at once, so nothing after the
`fatalExit` event happens. -/
def runSteps : List BStep → (Nat → Bool) → Nat → List BEvent
  | [], _, _ => []
  | BStep.removeAll p :: rest, ok, i =>
      BEvent.removeAll p :: runSteps rest ok i
  | BStep.spawn c :: rest, ok, i =>
      if ok i then BEvent.spawn c true :: runSteps rest ok (i + 1)
      else [BEvent.spawn c false, BEvent.fatalExit]

/-- The command's configuration: the package-level flag variables. -/
structure Config where
  goos : String
  goarch : String
  outputdir : String
  BuildTargets : List String
  Bazel : Bool
  Gazelle : Bool
deriving DecidableEq, Repr

def apiserverTarget : String := "apiserver"

def controllerTarget : String := "controller"

/-- `buildApiserver()`: linear scan of `BuildTargets` for `"apiserver"`. -/
def buildApiserver : List String → Bool
  | [] => false
  | t :: rest => if t = apiserverTarget then true else buildApiserver rest

/-- `buildController()`: linear scan of `BuildTargets` for `"controller"`. -/
def buildController : List String → Bool
  | [] => false
  | t :: rest => if t = controllerTarget then true else buildController rest

/-- The `go build` command for the apiserver target (`GoBuild`, lines
175–188): `c.Env` starts as `append(os.Environ(), "CGO_ENABLED=0")`, then
`GOOS` and `GOARCH` are appended when the configured strings are
non-empty. -/
def apiserverCmd (cfg : Config) (amb : Env) : ExecCmd :=
  let path := pjoin (pjoin "cmd" "apiserver") "main.go"
  let e0 := amb ++ [("CGO_ENABLED", "0")]
  let e1 := if 0 < cfg.goos.length then e0 ++ [("GOOS", cfg.goos)] else e0
  let e2 := if 0 < cfg.goarch.length then e1 ++ [("GOARCH", cfg.goarch)] else e1
  { prog := "go"
    args := ["build", "-o", pjoin cfg.outputdir "apiserver", path]
    env := some e2 }

/-- The `go build` command for the controller target (`GoBuild`, lines
199–220), translated statement by statement.  `c.Env` starts as the `nil`
slice; a Go `append` to it yields a non-`nil` slice, which we model with
`Option.getD [] ` followed by `some`.  Note that when the ambient
`CGO_ENABLED` is empty the code assigns `append(os.Environ(), ...)`,
discarding whatever was appended before. -/
def controllerCmd (cfg : Config) (amb : Env) : ExecCmd :=
  let gocache := getenv amb "GOCACHE"
  let localAppData := getenv amb "%LocalAppData%"
  let path := pjoin (pjoin "cmd" "manager") "main.go"
  let e0 : Option (List (String × String)) := none
  let e1 := if 0 < localAppData.length
    then some (e0.getD [] ++ [("GOCACHE", gocache)]) else e0
  let e2 := if 0 < localAppData.length
    then some (e1.getD [] ++ [("LocalAppData", localAppData)]) else e1
  let e3 := if (getenv amb "CGO_ENABLED").length = 0
    then some (amb ++ [("CGO_ENABLED", "0")]) else e2
  let e4 := if 0 < cfg.goos.length
    then some (e3.getD [] ++ [("GOOS", cfg.goos)]) else e3
  let e5 := if 0 < cfg.goarch.length
    then some (e4.getD [] ++ [("GOARCH", cfg.goarch)]) else e4
  { prog := "go"
    args := ["build", "-o", pjoin cfg.outputdir "controller-manager", path]
    env := e5 }

/-- The straight-line body of `GoBuild` after `initApis()`: remove both
stale binaries under the literal directory `"bin"`, then build each
selected target in order. -/
def GoBuildPlan (cfg : Config) (amb : Env) : List BStep :=
  [BStep.removeAll (pjoin "bin" "apiserver"),
   BStep.removeAll (pjoin "bin" "controller-manager")] ++
  (if buildApiserver cfg.BuildTargets
    then [BStep.spawn (apiserverCmd cfg amb)] else []) ++
  (if buildController cfg.BuildTargets
    then [BStep.spawn (controllerCmd cfg amb)] else [])

/-- `GoBuild`: the direct-toolchain path. -/
def GoBuild (cfg : Config) (amb : Env) (ok : Nat → Bool) : List BEvent :=
  BEvent.initApis :: runSteps (GoBuildPlan cfg amb) ok 0

/-- `bazel run //:gazelle -- update-repos ...` (lines 92–102), with its
fixed parameter list. -/
def updateReposCmd : ExecCmd :=
  { prog := "bazel"
    args := ["run", "//:gazelle", "--", "update-repos",
             "--from_file=go.mod",
             "--to_macro=repos.bzl%go_repositories",
             "--build_file_generation=on",
             "--build_file_proto_mode=disable",
             "--prune"]
    env := none }

/-- `bazel run //:gazelle` (line 112). -/
def gazelleCmd : ExecCmd :=
  { prog := "bazel", args := ["run", "//:gazelle"], env := none }

/-- The directories handed to `bazel build`, one per selected target
(lines 123–129). -/
def bazelTargetDirs (targets : List String) : List String :=
  (if buildApiserver targets then [pjoin "cmd" "apiserver"] else []) ++
  (if buildController targets then [pjoin "cmd" "manager"] else [])

/-- `bazel build <targetDirs>` (line 130). -/
def bazelBuildCmd (targets : List String) : ExecCmd :=
  { prog := "bazel", args := "build" :: bazelTargetDirs targets, env := none }

/-- `cp bazel-bin/cmd/apiserver/apiserver_/apiserver bin/apiserver`
(lines 143–145). -/
def cpApiserverCmd : ExecCmd :=
  { prog := "cp"
    args := [pjoin (pjoin (pjoin (pjoin "bazel-bin" "cmd") "apiserver")
               "apiserver_") "apiserver",
             pjoin "bin" "apiserver"]
    env := none }

/-- `cp bazel-bin/cmd/manager/manager_/manager bin/manager`
(lines 156–158). -/
def cpManagerCmd : ExecCmd :=
  { prog := "cp"
    args := [pjoin (pjoin (pjoin (pjoin "bazel-bin" "cmd") "manager")
               "manager_") "manager",
             pjoin "bin" "manager"]
    env := none }

/-- The straight-line body of `BazelBuild` after `initApis()`:
`gomodExists` is the result of the `os.Stat("go.mod")` probe. -/
def BazelBuildPlan (cfg : Config) (gomodExists : Bool) : List BStep :=
  (if cfg.Gazelle then
    (if gomodExists then [BStep.spawn updateReposCmd] else []) ++
    [BStep.spawn gazelleCmd]
   else []) ++
  [BStep.spawn (bazelBuildCmd cfg.BuildTargets),
   BStep.removeAll (pjoin "bin" "apiserver"),
   BStep.removeAll (pjoin "bin" "controller-manager")] ++
  (if buildApiserver cfg.BuildTargets then [BStep.spawn cpApiserverCmd] else []) ++
  (if buildController cfg.BuildTargets then [BStep.spawn cpManagerCmd] else [])

/-- `BazelBuild`: the orchestration-tool-delegated path. -/
def BazelBuild (cfg : Config) (gomodExists : Bool) (ok : Nat → Bool) :
    List BEvent :=
  BEvent.initApis :: runSteps (BazelBuildPlan cfg gomodExists) ok 0

/-- `RunBuildExecutables`: dispatch on the `--bazel` flag. -/
def RunBuildExecutables (cfg : Config) (amb : Env) (gomodExists : Bool)
    (ok : Nat → Bool) : List BEvent :=
  if cfg.Bazel then BazelBuild cfg gomodExists ok else GoBuild cfg amb ok

/-- Success oracle under which every spawned command succeeds. -/
def alwaysOk : Nat → Bool := fun _ => true

/-- Success oracle under which every spawned command fails. -/
def alwaysFail : Nat → Bool := fun _ => false

/-- The removal paths of a trace, in order. -/
def removalsOf (tr : List BEvent) : List String :=
  tr.filterMap (fun e => match e with
    | BEvent.removeAll p => some p
    | _ => none)

lemma buildApiserver_eq_true_iff (ts : List String) :
    buildApiserver ts = true ↔ "apiserver" ∈ ts := by
  induction ts with
  | nil => simp [buildApiserver]
  | cons t rest ih =>
      simp only [buildApiserver, apiserverTarget, List.mem_cons]
      by_cases h : t = "apiserver" <;> simp [h, ih, eq_comm]

lemma buildController_eq_true_iff (ts : List String) :
    buildController ts = true ↔ "controller" ∈ ts := by
  induction ts with
  | nil => simp [buildController]
  | cons t rest ih =>
      simp only [buildController, controllerTarget, List.mem_cons]
      by_cases h : t = "controller" <;> simp [h, ih, eq_comm]

lemma string_length_pos_iff (s : String) : 0 < s.length ↔ s ≠ "" := by
  cases s with
  | mk data => simp [String.length_mk, String.ext_iff, List.length_pos]

/-- C1: in the direct-toolchain path, whenever the apiserver target is
selected and its `go build` invocation fails (non-zero exit or spawn
failure), the run is exactly: `initApis`, the two unconditional stale-binary
removals, the failed apiserver spawn, and the fatal process exit — the
controller build is never attempted and nothing (no cleanup, retry or
rollback) follows the fatal exit, whatever the rest of the configuration
selected. -/
theorem goBuild_apiserver_failure_halts (cfg : Config) (amb : Env)
    (ok : Nat → Bool) (hsel : buildApiserver cfg.BuildTargets = true)
    (hfail : ok 0 = false) :
    GoBuild cfg amb ok =
      [BEvent.initApis,
       BEvent.removeAll "bin/apiserver",
       BEvent.removeAll "bin/controller-manager",
       BEvent.spawn (apiserverCmd cfg amb) false,
       BEvent.fatalExit] := by
  simp [GoBuild, GoBuildPlan, hsel, runSteps, hfail, pjoin]

/-- Witness for C1 at a concrete configuration with both targets selected
and a failing toolchain. -/
theorem goBuild_apiserver_failure_halts_witness :
    GoBuild ⟨"linux", "amd64", "bin", ["apiserver", "controller"], false, false⟩
        [("PATH", "/usr/bin")] alwaysFail =
      [BEvent.initApis,
       BEvent.removeAll "bin/apiserver",
       BEvent.removeAll "bin/controller-manager",
       BEvent.spawn
         (apiserverCmd
           ⟨"linux", "amd64", "bin", ["apiserver", "controller"], false, false⟩
           [("PATH", "/usr/bin")]) false,
       BEvent.fatalExit] :=
  goBuild_apiserver_failure_halts _ _ _ (by decide) rfl

/-- C2: for every target-selection list, `buildApiserver` returns true iff
the string `"apiserver"` occurs in the list, and `buildController` returns
true iff `"controller"` occurs in it; membership is insensitive to order
and duplicates, so both functions are too. -/
theorem buildTargets_membership (ts : List String) :
    (buildApiserver ts = true ↔ "apiserver" ∈ ts) ∧
    (buildController ts = true ↔ "controller" ∈ ts) :=
  ⟨buildApiserver_eq_true_iff ts, buildController_eq_true_iff ts⟩

/-- C4: with `targets = ["controller"]`, the direct path still removes both
stale binaries (`bin/apiserver` and `bin/controller-manager`) before
building, and the only toolchain invocation spawned is the controller one —
no invocation for the unselected apiserver target ever appears in the
trace. -/
theorem goBuild_controller_only (goos goarch od : String) (b g : Bool)
    (amb : Env) (ok : Nat → Bool) :
    GoBuild ⟨goos, goarch, od, ["controller"], b, g⟩ amb ok =
      BEvent.initApis ::
      BEvent.removeAll "bin/apiserver" ::
      BEvent.removeAll "bin/controller-manager" ::
      (if ok 0 then
        [BEvent.spawn (controllerCmd ⟨goos, goarch, od, ["controller"], b, g⟩ amb) true]
       else
        [BEvent.spawn (controllerCmd ⟨goos, goarch, od, ["controller"], b, g⟩ amb) false,
         BEvent.fatalExit]) ∧
    ∀ br : Bool,
      BEvent.spawn (apiserverCmd ⟨goos, goarch, od, ["controller"], b, g⟩ amb) br ∉
        GoBuild ⟨goos, goarch, od, ["controller"], b, g⟩ amb ok := by
  constructor
  · cases hk : ok 0 <;>
      simp [GoBuild, GoBuildPlan, buildApiserver, buildController,
        apiserverTarget, controllerTarget, runSteps, hk, pjoin]
  · intro br
    have hargs : (apiserverCmd ⟨goos, goarch, od, ["controller"], b, g⟩ amb).args ≠
        (controllerCmd ⟨goos, goarch, od, ["controller"], b, g⟩ amb).args := by
      simp [apiserverCmd, controllerCmd, pjoin]
    cases hk : ok 0 <;>
      simp [GoBuild, GoBuildPlan, buildApiserver, buildController,
        apiserverTarget, controllerTarget, runSteps, hk, pjoin] <;>
      intro heq <;> exact (hargs (congrArg ExecCmd.args heq)).elim

/-- Witness for C4: the controller-only trace at a concrete configuration
with a succeeding toolchain. -/
theorem goBuild_controller_only_witness :
    GoBuild ⟨"linux", "arm64", "out", ["controller"], false, false⟩
        [("PATH", "/usr/bin")] alwaysOk =
      BEvent.initApis ::
      BEvent.removeAll "bin/apiserver" ::
      BEvent.removeAll "bin/controller-manager" ::
      (if alwaysOk 0 then
        [BEvent.spawn
          (controllerCmd ⟨"linux", "arm64", "out", ["controller"], false, false⟩
            [("PATH", "/usr/bin")]) true]
       else
        [BEvent.spawn
          (controllerCmd ⟨"linux", "arm64", "out", ["controller"], false, false⟩
            [("PATH", "/usr/bin")]) false,
         BEvent.fatalExit]) :=
  (goBuild_controller_only "linux" "arm64" "out" false false
    [("PATH", "/usr/bin")] alwaysOk).1

/-- C3 counterexample: with the configured output directory `"out"`, the
direct path does not delete `out/apiserver`; the paths it deletes are the
hardcoded `bin/apiserver` and `bin/controller-manager`, not
`<outputdir>/<artifactName>`. -/
theorem goBuild_removal_not_outputdir :
    BEvent.removeAll (pjoin "out" "apiserver") ∉
      GoBuild ⟨"linux", "amd64", "out", ["apiserver", "controller"], false, false⟩
        [] alwaysOk ∧
    removalsOf
      (GoBuild ⟨"linux", "amd64", "out", ["apiserver", "controller"], false, false⟩
        [] alwaysOk) =
      [pjoin "bin" "apiserver", pjoin "bin" "controller-manager"] := by
  decide

/-- C3 amended: the stale artifacts deleted by the direct path are always
exactly `bin/apiserver` and `bin/controller-manager` (they occur in every
trace, before any build, whatever the oracle — `os.RemoveAll` cannot fail,
so absence of the file is not an error); these coincide with the
`<outputdir>/<artifactName>` locations the `-o` flag writes to only when
the configured output directory is the default `"bin"`. -/
theorem goBuild_removal_paths (cfg : Config) (amb : Env) (ok : Nat → Bool) :
    removalsOf (GoBuild cfg amb ok) =
      [pjoin "bin" "apiserver", pjoin "bin" "controller-manager"] ∧
    (cfg.outputdir = "bin" →
      removalsOf (GoBuild cfg amb ok) =
        [pjoin cfg.outputdir "apiserver", pjoin cfg.outputdir "controller-manager"]) := by
  have h1 : removalsOf (GoBuild cfg amb ok) =
      [pjoin "bin" "apiserver", pjoin "bin" "controller-manager"] := by
    cases hA : buildApiserver cfg.BuildTargets <;>
    cases hC : buildController cfg.BuildTargets <;>
    cases h0 : ok 0 <;> cases hmore : ok 1 <;>
      simp [GoBuild, GoBuildPlan, runSteps, removalsOf, hA, hC, h0, hmore]
  exact ⟨h1, fun hb => by rw [h1, hb]⟩

/-- Witness for C3's amended statement at the default output directory. -/
theorem goBuild_removal_paths_witness :
    removalsOf
      (GoBuild ⟨"", "", "bin", ["apiserver", "controller"], false, false⟩
        [] alwaysOk) =
      [pjoin "bin" "apiserver", pjoin "bin" "controller-manager"] :=
  (goBuild_removal_paths ⟨"", "", "bin", ["apiserver", "controller"], false, false⟩
    [] alwaysOk).2 rfl

/-- C5: in the direct path, for either selected target's constructed
command, the child environment gains the entry `GOOS=<goos>` when the
configured `goos` is non-empty and `GOARCH=<goarch>` when the configured
`goarch` is non-empty; when the respective string is configured empty,
every `GOOS` (resp. `GOARCH`) entry of the child environment already comes
from the ambient environment — in particular with both empty nothing is
added beyond the ambient entries, and with `goos="linux"`,
`goarch="arm64"` the child environment contains `GOOS=linux` and
`GOARCH=arm64`. -/
theorem goBuild_child_env_goos_goarch (goos goarch od : String)
    (ts : List String) (b g : Bool) (amb : Env) (c : ExecCmd)
    (hc : c = apiserverCmd ⟨goos, goarch, od, ts, b, g⟩ amb ∨
          c = controllerCmd ⟨goos, goarch, od, ts, b, g⟩ amb) :
    (goos ≠ "" → ("GOOS", goos) ∈ childEnv amb c) ∧
    (goarch ≠ "" → ("GOARCH", goarch) ∈ childEnv amb c) ∧
    (goos = "" → ∀ p ∈ childEnv amb c, p.1 = "GOOS" → p ∈ amb) ∧
    (goarch = "" → ∀ p ∈ childEnv amb c, p.1 = "GOARCH" → p ∈ amb) := by
  rcases hc with hc | hc <;> subst hc <;>
    refine ⟨fun hne => ?_, fun hne => ?_,
      fun h0 p hp hk => ?_, fun h0 p hp hk => ?_⟩
  · have h1 : 0 < goos.length := (string_length_pos_iff goos).mpr hne
    simp only [apiserverCmd, childEnv]
    split_ifs <;> simp_all
  · have h1 : 0 < goarch.length := (string_length_pos_iff goarch).mpr hne
    simp only [apiserverCmd, childEnv]
    split_ifs <;> simp_all
  · subst h0
    obtain ⟨pk, pv⟩ := p
    simp [apiserverCmd, childEnv] at hp
    (try split_ifs at hp) <;> simp_all
  · subst h0
    obtain ⟨pk, pv⟩ := p
    simp [apiserverCmd, childEnv] at hp
    (try split_ifs at hp) <;> simp_all
  · have h1 : 0 < goos.length := (string_length_pos_iff goos).mpr hne
    simp only [controllerCmd, childEnv]
    split_ifs <;> simp_all
  · have h1 : 0 < goarch.length := (string_length_pos_iff goarch).mpr hne
    simp only [controllerCmd, childEnv]
    split_ifs <;> simp_all
  · subst h0
    obtain ⟨pk, pv⟩ := p
    simp [controllerCmd, childEnv] at hp
    (try split_ifs at hp) <;> simp_all
  · subst h0
    obtain ⟨pk, pv⟩ := p
    simp [controllerCmd, childEnv] at hp
    (try split_ifs at hp) <;> simp_all

/-- Witness for C5: with `goos="linux"`, `goarch="arm64"` the controller
child environment contains `GOOS=linux` and `GOARCH=arm64`. -/
theorem goBuild_child_env_goos_goarch_witness :
    ("GOOS", "linux") ∈
      childEnv [("PATH", "/usr/bin")]
        (controllerCmd ⟨"linux", "arm64", "bin", ["controller"], false, false⟩
          [("PATH", "/usr/bin")]) ∧
    ("GOARCH", "arm64") ∈
      childEnv [("PATH", "/usr/bin")]
        (controllerCmd ⟨"linux", "arm64", "bin", ["controller"], false, false⟩
          [("PATH", "/usr/bin")]) :=
  ⟨(goBuild_child_env_goos_goarch "linux" "arm64" "bin" ["controller"] false false
      [("PATH", "/usr/bin")] _ (Or.inr rfl)).1 (by decide),
   (goBuild_child_env_goos_goarch "linux" "arm64" "bin" ["controller"] false false
      [("PATH", "/usr/bin")] _ (Or.inr rfl)).2.1 (by decide)⟩

/-- C6: the apiserver child environment always carries the effective value
`CGO_ENABLED=0` — the entry is appended after the ambient environment, so
it overrides any ambient value; the controller command gets `CGO_ENABLED=0`
(as its effective value) exactly when the ambient `CGO_ENABLED` is empty,
and when the ambient value is non-empty no `CGO_ENABLED` entry at all is
among the explicitly constructed entries. -/
theorem goBuild_cgo_enabled (cfg : Config) (amb : Env) :
    envValue (childEnv amb (apiserverCmd cfg amb)) "CGO_ENABLED" = some "0" ∧
    (getenv amb "CGO_ENABLED" = "" →
      envValue (childEnv amb (controllerCmd cfg amb)) "CGO_ENABLED" = some "0") ∧
    (getenv amb "CGO_ENABLED" ≠ "" →
      ∀ p ∈ (controllerCmd cfg amb).env.getD [], p.1 ≠ "CGO_ENABLED") := by
  refine ⟨?_, fun h => ?_, fun h p hp => ?_⟩
  · simp only [apiserverCmd, childEnv, Option.getD_some]
    split_ifs <;>
      simp [envValue, List.reverse_append, List.find?_cons_of_neg,
        List.find?_cons_of_pos]
  · have hlen : (getenv amb "CGO_ENABLED").length = 0 := by
      rw [h]; exact String.length_empty
    simp only [controllerCmd, childEnv, hlen, if_pos, Option.getD_some]
    split_ifs <;>
      simp [envValue, List.reverse_append, List.find?_cons_of_neg,
        List.find?_cons_of_pos]
  · have hlen : ¬ (getenv amb "CGO_ENABLED").length = 0 := by
      intro h0
      exact absurd ((string_length_pos_iff _).mpr h)
        (by simp [Nat.pos_iff_ne_zero, h0])
    obtain ⟨pk, pv⟩ := p
    simp only [controllerCmd, hlen] at hp
    split_ifs at hp <;> (intro hpk; subst hpk; simp_all)

/-- Witness for C6 at concrete inputs: the apiserver command with an
ambient `CGO_ENABLED=1` still has effective value `0`, and the controller
command with no ambient `CGO_ENABLED` also ends at `0`. -/
theorem goBuild_cgo_enabled_witness :
    envValue
      (childEnv [("CGO_ENABLED", "1")]
        (apiserverCmd ⟨"", "", "bin", ["apiserver"], false, false⟩
          [("CGO_ENABLED", "1")])) "CGO_ENABLED" = some "0" ∧
    envValue
      (childEnv [("PATH", "/usr/bin")]
        (controllerCmd ⟨"", "", "bin", ["controller"], false, false⟩
          [("PATH", "/usr/bin")])) "CGO_ENABLED" = some "0" :=
  ⟨(goBuild_cgo_enabled ⟨"", "", "bin", ["apiserver"], false, false⟩
      [("CGO_ENABLED", "1")]).1,
   (goBuild_cgo_enabled ⟨"", "", "bin", ["controller"], false, false⟩
      [("PATH", "/usr/bin")]).2.1 (by decide)⟩

/-- C7: the inheritance the spec claims fails on the code.  With ambient
environment `CGO_ENABLED=1, PATH=/usr/bin` and configured `goos="linux"`,
the controller command's `Env` is assigned `[GOOS=linux]` without
`os.Environ()`, so the child environment loses every ambient entry —
the documented overlay ("inherits ambient process environment, appends or
overrides specific keys") does not hold for this invocation. -/
theorem controllerCmd_drops_ambient_env :
    childEnv [("CGO_ENABLED", "1"), ("PATH", "/usr/bin")]
      (controllerCmd ⟨"linux", "", "bin", ["apiserver", "controller"], false, false⟩
        [("CGO_ENABLED", "1"), ("PATH", "/usr/bin")]) = [("GOOS", "linux")] ∧
    ("PATH", "/usr/bin") ∉
      childEnv [("CGO_ENABLED", "1"), ("PATH", "/usr/bin")]
        (controllerCmd ⟨"linux", "", "bin", ["apiserver", "controller"], false, false⟩
          [("CGO_ENABLED", "1"), ("PATH", "/usr/bin")]) ∧
    ("CGO_ENABLED", "1") ∉
      childEnv [("CGO_ENABLED", "1"), ("PATH", "/usr/bin")]
        (controllerCmd ⟨"linux", "", "bin", ["apiserver", "controller"], false, false⟩
          [("CGO_ENABLED", "1"), ("PATH", "/usr/bin")]) := by
  decide

/-- C8: the controller target's extra `GOCACHE`/`LocalAppData` propagation
is gated on the ambient variable whose name is the literal string
`%LocalAppData%`; whenever that variable is empty or absent, every
`GOCACHE` or `LocalAppData` entry of the child environment already comes
from the ambient environment — nothing is appended. -/
theorem controller_gocache_gating (goos goarch od : String) (ts : List String)
    (b g : Bool) (amb : Env)
    (hempty : getenv amb "%LocalAppData%" = "") :
    ∀ p ∈ childEnv amb (controllerCmd ⟨goos, goarch, od, ts, b, g⟩ amb),
      (p.1 = "GOCACHE" ∨ p.1 = "LocalAppData") → p ∈ amb := by
  have hlen : ¬ 0 < (getenv amb "%LocalAppData%").length := by
    rw [hempty]; simp
  intro p hp hkey
  obtain ⟨pk, pv⟩ := p
  simp only [controllerCmd, childEnv, hlen] at hp
  split_ifs at hp <;> rcases hkey with hk | hk <;> subst hk <;> simp_all

/-- Witness for C8: with ambient `GOCACHE=/c` and no `%LocalAppData%`
variable, the `GOCACHE` entry found in the controller child environment is
the ambient one. -/
theorem controller_gocache_gating_witness :
    ("GOCACHE", "/c") ∈ [(("GOCACHE" : String), ("/c" : String))] :=
  controller_gocache_gating "" "" "bin" ["controller"] false false
    [("GOCACHE", "/c")] (by decide) ("GOCACHE", "/c") (by decide) (Or.inl rfl)

lemma spawn_mem_runSteps {st : List BStep} {ok : Nat → Bool} {i : Nat}
    {c : ExecCmd} {br : Bool}
    (h : BEvent.spawn c br ∈ runSteps st ok i) : BStep.spawn c ∈ st := by
  induction st generalizing i with
  | nil => simp [runSteps] at h
  | cons s rest ih =>
      cases s with
      | removeAll p =>
          simp only [runSteps, List.mem_cons] at h
          rcases h with h | h
          · exact absurd h (by simp)
          · exact List.mem_cons_of_mem _ (ih h)
      | spawn c2 =>
          simp only [runSteps] at h
          by_cases hk : ok i
          · rw [if_pos hk] at h
            rcases List.mem_cons.mp h with h | h
            · obtain ⟨rfl, -⟩ := BEvent.spawn.inj h
              exact List.mem_cons_self _ _
            · exact List.mem_cons_of_mem _ (ih h)
          · rw [if_neg hk] at h
            rcases List.mem_cons.mp h with h | h
            · obtain ⟨rfl, -⟩ := BEvent.spawn.inj h
              exact List.mem_cons_self _ _
            · simp at h

lemma removeAll_mem_runSteps {st : List BStep} {ok : Nat → Bool} {i : Nat}
    {p : String}
    (h : BEvent.removeAll p ∈ runSteps st ok i) : BStep.removeAll p ∈ st := by
  induction st generalizing i with
  | nil => simp [runSteps] at h
  | cons s rest ih =>
      cases s with
      | removeAll q =>
          simp only [runSteps, List.mem_cons] at h
          rcases h with h | h
          · obtain rfl := BEvent.removeAll.inj h
            exact List.mem_cons_self _ _
          · exact List.mem_cons_of_mem _ (ih h)
      | spawn c2 =>
          simp only [runSteps] at h
          by_cases hk : ok i
          · rw [if_pos hk] at h
            rcases List.mem_cons.mp h with h | h
            · exact absurd h (by simp)
            · exact List.mem_cons_of_mem _ (ih h)
          · rw [if_neg hk] at h
            simp at h

/-- With an oracle under which every command succeeds, a plan executes
fully in order. -/
lemma runSteps_alwaysOk (st : List BStep) (i : Nat) :
    runSteps st alwaysOk i = st.map (fun s => match s with
      | BStep.removeAll p => BEvent.removeAll p
      | BStep.spawn c => BEvent.spawn c true) := by
  induction st generalizing i with
  | nil => rfl
  | cons s rest ih => cases s <;> simp [runSteps, alwaysOk, ih]

lemma bazel_plan_spawn_superset (cfg : Config) (gomod : Bool) (c : ExecCmd)
    (h : BStep.spawn c ∈ BazelBuildPlan cfg gomod) :
    c = updateReposCmd ∨ c = gazelleCmd ∨ c = bazelBuildCmd cfg.BuildTargets ∨
    c = cpApiserverCmd ∨ c = cpManagerCmd := by
  simp only [BazelBuildPlan, List.mem_append, List.mem_cons] at h
  split_ifs at h <;> simp_all <;> tauto

lemma bazel_plan_removeAll_superset (cfg : Config) (gomod : Bool) (p : String)
    (h : BStep.removeAll p ∈ BazelBuildPlan cfg gomod) :
    p = pjoin "bin" "apiserver" ∨ p = pjoin "bin" "controller-manager" := by
  simp only [BazelBuildPlan, List.mem_append, List.mem_cons] at h
  split_ifs at h <;> simp_all

/-- C9: in the delegated path with the `--gazelle` flag set, when `go.mod`
is absent the `update-repos` sub-action is never spawned while the general
`bazel run //:gazelle` regeneration still runs; when `go.mod` exists the
`update-repos` sub-action runs with its fixed parameter list; and a failure
of either sub-action ends the whole run fatally, right there. -/
theorem bazelBuild_gazelle_regeneration (goos goarch od : String)
    (ts : List String) (b : Bool) (ok : Nat → Bool) :
    (∀ br : Bool,
      BEvent.spawn updateReposCmd br ∉
        BazelBuild ⟨goos, goarch, od, ts, b, true⟩ false ok) ∧
    (∃ br : Bool,
      BEvent.spawn gazelleCmd br ∈
        BazelBuild ⟨goos, goarch, od, ts, b, true⟩ false ok) ∧
    (∃ br : Bool,
      BEvent.spawn updateReposCmd br ∈
        BazelBuild ⟨goos, goarch, od, ts, b, true⟩ true ok) ∧
    updateReposCmd.args = ["run", "//:gazelle", "--", "update-repos",
      "--from_file=go.mod", "--to_macro=repos.bzl%go_repositories",
      "--build_file_generation=on", "--build_file_proto_mode=disable",
      "--prune"] ∧
    (ok 0 = false →
      BazelBuild ⟨goos, goarch, od, ts, b, true⟩ true ok =
        [BEvent.initApis, BEvent.spawn updateReposCmd false,
         BEvent.fatalExit]) ∧
    (ok 0 = false →
      BazelBuild ⟨goos, goarch, od, ts, b, true⟩ false ok =
        [BEvent.initApis, BEvent.spawn gazelleCmd false, BEvent.fatalExit]) ∧
    (ok 0 = true → ok 1 = false →
      BazelBuild ⟨goos, goarch, od, ts, b, true⟩ true ok =
        [BEvent.initApis, BEvent.spawn updateReposCmd true,
         BEvent.spawn gazelleCmd false, BEvent.fatalExit]) := by
  refine ⟨?_, ?_, ?_, rfl, fun h0 => ?_, fun h0 => ?_, fun h0 h1 => ?_⟩
  · intro br hmem
    rcases List.mem_cons.mp hmem with h | h
    · exact absurd h (by simp)
    · have hst := spawn_mem_runSteps h
      cases hA : buildApiserver ts <;> cases hC : buildController ts <;>
        simp [BazelBuildPlan, hA, hC, updateReposCmd, gazelleCmd,
          bazelBuildCmd, cpApiserverCmd, cpManagerCmd, pjoin] at hst
  · cases h0 : ok 0 with
    | true =>
        exact ⟨true, by simp [BazelBuild, BazelBuildPlan, runSteps, h0]⟩
    | false =>
        exact ⟨false, by simp [BazelBuild, BazelBuildPlan, runSteps, h0]⟩
  · cases h0 : ok 0 with
    | true =>
        exact ⟨true, by simp [BazelBuild, BazelBuildPlan, runSteps, h0]⟩
    | false =>
        exact ⟨false, by simp [BazelBuild, BazelBuildPlan, runSteps, h0]⟩
  · simp [BazelBuild, BazelBuildPlan, runSteps, h0]
  · simp [BazelBuild, BazelBuildPlan, runSteps, h0]
  · simp [BazelBuild, BazelBuildPlan, runSteps, h0, h1]

/-- Witness for C9: with `go.mod` present and the first spawned command
failing, the run is exactly the failed `update-repos` invocation followed
by the fatal exit. -/
theorem bazelBuild_gazelle_regeneration_witness :
    BazelBuild ⟨"", "", "bin", ["apiserver", "controller"], true, true⟩
        true alwaysFail =
      [BEvent.initApis, BEvent.spawn updateReposCmd false, BEvent.fatalExit] :=
  (bazelBuild_gazelle_regeneration "" "" "bin" ["apiserver", "controller"]
    true alwaysFail).2.2.2.2.1 rfl

/-- C10: in the delegated path, every path the removal step deletes is one
of `bin/apiserver` and `bin/controller-manager` — in particular
`bin/manager` is never removed — while every `cp` invocation's argument
list ends at destination `bin/apiserver` or `bin/manager`, never
`bin/controller-manager`; and when every command succeeds, both removals
happen and a selected controller is copied to `bin/manager`. -/
theorem bazelBuild_removal_copy_paths (goos goarch od : String)
    (ts : List String) (b g gomod : Bool) (ok : Nat → Bool) :
    (BEvent.removeAll (pjoin "bin" "manager") ∉
       BazelBuild ⟨goos, goarch, od, ts, b, g⟩ gomod ok) ∧
    (∀ p, BEvent.removeAll p ∈ BazelBuild ⟨goos, goarch, od, ts, b, g⟩ gomod ok →
       p = pjoin "bin" "apiserver" ∨ p = pjoin "bin" "controller-manager") ∧
    (∀ c br, BEvent.spawn c br ∈ BazelBuild ⟨goos, goarch, od, ts, b, g⟩ gomod ok →
       c.prog = "cp" →
       c.args = [pjoin (pjoin (pjoin (pjoin "bazel-bin" "cmd") "apiserver")
                   "apiserver_") "apiserver",
                 pjoin "bin" "apiserver"] ∨
       c.args = [pjoin (pjoin (pjoin (pjoin "bazel-bin" "cmd") "manager")
                   "manager_") "manager",
                 pjoin "bin" "manager"]) ∧
    (BEvent.removeAll (pjoin "bin" "apiserver") ∈
       BazelBuild ⟨goos, goarch, od, ts, b, g⟩ gomod alwaysOk) ∧
    (BEvent.removeAll (pjoin "bin" "controller-manager") ∈
       BazelBuild ⟨goos, goarch, od, ts, b, g⟩ gomod alwaysOk) ∧
    (buildController ts = true →
       BEvent.spawn cpManagerCmd true ∈
         BazelBuild ⟨goos, goarch, od, ts, b, g⟩ gomod alwaysOk) := by
  have h2 : ∀ p, BEvent.removeAll p ∈ BazelBuild ⟨goos, goarch, od, ts, b, g⟩ gomod ok →
      p = pjoin "bin" "apiserver" ∨ p = pjoin "bin" "controller-manager" := by
    intro p hmem
    rcases List.mem_cons.mp hmem with h | h
    · exact absurd h (by simp)
    · exact bazel_plan_removeAll_superset _ _ _ (removeAll_mem_runSteps h)
  refine ⟨?_, h2, ?_, ?_, ?_, fun hC => ?_⟩
  · intro hmem
    rcases h2 _ hmem with h | h <;> simp [pjoin] at h
  · intro c br hmem hprog
    rcases List.mem_cons.mp hmem with h | h
    · exact absurd h (by simp)
    · have h5 := bazel_plan_spawn_superset _ _ _ (spawn_mem_runSteps h)
      rcases h5 with rfl | rfl | rfl | rfl | rfl
      · exact absurd hprog (by simp [updateReposCmd])
      · exact absurd hprog (by simp [gazelleCmd])
      · exact absurd hprog (by simp [bazelBuildCmd])
      · exact Or.inl rfl
      · exact Or.inr rfl
  · cases hg : g <;> cases hm : gomod <;>
    cases hA : buildApiserver ts <;> cases hC : buildController ts <;>
      simp [BazelBuild, BazelBuildPlan, runSteps_alwaysOk, hA, hC]
  · cases hg : g <;> cases hm : gomod <;>
    cases hA : buildApiserver ts <;> cases hC : buildController ts <;>
      simp [BazelBuild, BazelBuildPlan, runSteps_alwaysOk, hA, hC]
  · cases hg : g <;> cases hm : gomod <;> cases hA : buildApiserver ts <;>
      simp [BazelBuild, BazelBuildPlan, runSteps_alwaysOk, hA, hC]

/-- Witness for C10: with every command succeeding and both targets
selected, the controller artifact is copied to `bin/manager`. -/
theorem bazelBuild_removal_copy_paths_witness :
    BEvent.spawn cpManagerCmd true ∈
      BazelBuild ⟨"", "", "bin", ["apiserver", "controller"], true, false⟩
        false alwaysOk :=
  (bazelBuild_removal_copy_paths "" "" "bin" ["apiserver", "controller"]
    true false false alwaysOk).2.2.2.2.2 (by decide)

end Build
